import Mathlib

/-!
Verification of the sol-wallet-monitor balance-tracking engine (src/main.rs).

Shallow embedding conventions:
* `f64` balances are modelled as exact rationals (`ℚ`); every rational is a
  finite real number, so the `is_finite && !is_nan` guard in the chart code
  is vacuous in the model.
* `DateTime<Utc>` timestamps are modelled as integer milliseconds since the
  Unix epoch; `DateTime::timestamp()` (whole seconds, floored) becomes
  Euclidean division by 1000, and chrono `Duration::num_seconds` and friends
  (which truncate toward zero) become `Int.tdiv`.
* `VecDeque` history is a `List` whose head is the front of the deque.
* `Utc::now()` is modelled by threading an explicit `now : Int` argument.
* `HashMap<String, WalletBalance>` is modelled by an association list.
-/

/-- MAX_HISTORY_SIZE (main.rs line 43). -/
def MAX_HISTORY_SIZE : Nat := 10000000

/-- BalanceHistory (main.rs line 61): one in-memory history point. -/
structure BalanceHistory where
  timestamp : Int
  sol_balance : ℚ
  wsol_balance : ℚ
  total_balance : ℚ
deriving Repr, DecidableEq

/-- WalletHistoryRecord (main.rs line 75): the persisted record shape. -/
structure WalletHistoryRecord where
  timestamp : Int
  address : String
  sol_balance : ℚ
  wsol_balance : ℚ
  total_balance : ℚ
deriving Repr, DecidableEq

/-- WalletHistoryRecord::new (main.rs line 85); `now` models `Utc::now()`. -/
def WalletHistoryRecord.new (now : Int) (address : String)
    (sol_balance wsol_balance : ℚ) : WalletHistoryRecord :=
  { timestamp := now
    address := address
    sol_balance := sol_balance
    wsol_balance := wsol_balance
    total_balance := sol_balance + wsol_balance }

/-- WalletSummary (main.rs line 50). -/
structure WalletSummary where
  address : String
  name : String
  sol_balance : ℚ
  wsol_balance : ℚ
  total_balance : ℚ
  last_update : Int
  sampled_history : List BalanceHistory
deriving Repr, DecidableEq

/-- WalletBalance (main.rs line 167). -/
structure WalletBalance where
  address : String
  name : String
  sol_balance : ℚ
  wsol_balance : ℚ
  wsol_initialized : Bool
  last_update : Int
  history : List BalanceHistory
deriving Repr, DecidableEq

namespace WalletBalance

/-- WalletBalance::new (main.rs line 179). -/
def new (address name : String) (now : Int) : WalletBalance :=
  { address := address
    name := name
    sol_balance := 0
    wsol_balance := 0
    wsol_initialized := false
    last_update := now
    history := [] }

/-- WalletBalance::total_balance (main.rs line 220). -/
def total_balance (w : WalletBalance) : ℚ :=
  if !w.wsol_initialized then w.sol_balance else w.sol_balance + w.wsol_balance

/-- The `while self.history.len() > cap { self.history.pop_front(); }` loop
of add_to_history / load_history_from_db (main.rs lines 239 and 260). -/
def trimFront (cap : Nat) : List BalanceHistory → List BalanceHistory
  | [] => []
  | x :: t => if (x :: t).length > cap then trimFront cap t else x :: t

/-- The history point constructed by add_to_history (main.rs line 229). -/
def historyPoint (w : WalletBalance) : BalanceHistory :=
  { timestamp := w.last_update
    sol_balance := w.sol_balance
    wsol_balance := if w.wsol_initialized then w.wsol_balance else 0
    total_balance := w.total_balance }

/-- WalletBalance::add_to_history (main.rs line 228): push_back, then evict
from the front while over the cap. -/
def add_to_history (w : WalletBalance) : WalletBalance :=
  { w with history := trimFront MAX_HISTORY_SIZE (w.history ++ [w.historyPoint]) }

/-- WalletBalance::update_sol (main.rs line 191). -/
def update_sol (w : WalletBalance) (lamports : Nat) (now : Int) : WalletBalance :=
  let w := { w with sol_balance := (lamports : ℚ) / 1000000000, last_update := now }
  if w.wsol_initialized then w.add_to_history else w

/-- WalletBalance::update_wsol (main.rs line 200). -/
def update_wsol (w : WalletBalance) (amount : ℚ) (now : Int) : WalletBalance :=
  let w := { w with wsol_balance := amount, wsol_initialized := true, last_update := now }
  if w.wsol_initialized then w.add_to_history else w

/-- WalletBalance::initialize_wsol (main.rs line 210): appends the first
history point only when history is empty. -/
def initialize_wsol (w : WalletBalance) (amount : ℚ) (now : Int) : WalletBalance :=
  let w := { w with wsol_balance := amount, wsol_initialized := true, last_update := now }
  if w.history.isEmpty then w.add_to_history else w

/-- WalletBalance::load_history_from_db (main.rs line 244): clear, push every
record, then evict from the front while over the cap.  Balances themselves
are not touched. -/
def load_history_from_db (w : WalletBalance) (records : List WalletHistoryRecord) :
    WalletBalance :=
  { w with history := trimFront MAX_HISTORY_SIZE (records.map fun r =>
      { timestamp := r.timestamp
        sol_balance := r.sol_balance
        wsol_balance := r.wsol_balance
        total_balance := r.total_balance }) }

/-- The index-stride down-sampling inside WalletBalance::to_summary
(main.rs lines 267-277). -/
def sampleHistory (history : List BalanceHistory) : List BalanceHistory :=
  if history.length > 100 then
    let step := history.length / 100
    (((history.enum).filter fun p => p.1 % step == 0).map Prod.snd).take 100
  else history

/-- WalletBalance::to_summary (main.rs line 265). -/
def to_summary (w : WalletBalance) : WalletSummary :=
  { address := w.address
    name := w.name
    sol_balance := w.sol_balance
    wsol_balance := if w.wsol_initialized then w.wsol_balance else 0
    total_balance := w.total_balance
    last_update := w.last_update
    sampled_history := sampleHistory w.history }

end WalletBalance

/-- One mutating Balance Store operation, as in §4.1 of the spec. -/
inductive StoreOp
  | updateSol (lamports : Nat) (now : Int)
  | updateWsol (amount : ℚ) (now : Int)
  | initializeWsol (amount : ℚ) (now : Int)
  | loadHistory (records : List WalletHistoryRecord)

/-- Apply one Balance Store operation. -/
def applyOp (w : WalletBalance) : StoreOp → WalletBalance
  | .updateSol lamports now => w.update_sol lamports now
  | .updateWsol amount now => w.update_wsol amount now
  | .initializeWsol amount now => w.initialize_wsol amount now
  | .loadHistory records => w.load_history_from_db records

/-- Apply a sequence of Balance Store operations, oldest first. -/
def applyOps (w : WalletBalance) (ops : List StoreOp) : WalletBalance :=
  ops.foldl applyOp w

/-- The wallet states reachable through the program: constructed by
WalletBalance::new and mutated only by the four store operations. -/
inductive Reachable : WalletBalance → Prop
  | new (address name : String) (now : Int) : Reachable (WalletBalance.new address name now)
  | update_sol {w : WalletBalance} (lamports : Nat) (now : Int) :
      Reachable w → Reachable (w.update_sol lamports now)
  | update_wsol {w : WalletBalance} (amount : ℚ) (now : Int) :
      Reachable w → Reachable (w.update_wsol amount now)
  | initialize_wsol {w : WalletBalance} (amount : ℚ) (now : Int) :
      Reachable w → Reachable (w.initialize_wsol amount now)
  | load {w : WalletBalance} (records : List WalletHistoryRecord) :
      Reachable w → Reachable (w.load_history_from_db records)

/-! ## Query/Resampling Engine (get_chart_data, main.rs lines 435-533) -/

/-- ChartDataPoint (main.rs line 69). -/
structure ChartDataPoint where
  time : Int
  value : ℚ
deriving Repr, DecidableEq

/-- DateTime::timestamp(): whole seconds since epoch, floored; Euclidean
division by a positive divisor is floor division. -/
def epochSeconds (millis : Int) : Int := millis / 1000

/-- chrono Duration::num_seconds on a duration given in milliseconds:
whole seconds, truncated toward zero. -/
def durSeconds (millis : Int) : Int := millis.tdiv 1000

/-- chrono Duration::num_minutes. -/
def durMinutes (millis : Int) : Int := (durSeconds millis).tdiv 60

/-- chrono Duration::num_hours. -/
def durHours (millis : Int) : Int := (durSeconds millis).tdiv 3600

/-- chrono Duration::num_days. -/
def durDays (millis : Int) : Int := (durSeconds millis).tdiv 86400

/-- chrono Duration::num_weeks. -/
def durWeeks (millis : Int) : Int := (durSeconds millis).tdiv 604800

/-- The interval match of get_chart_data (main.rs lines 450-462), expressed
as the predicate each arm filters with; the catch-all arm (together with
"ALL") keeps everything. -/
def windowKeep (interval : String) (now : Int) (h : BalanceHistory) : Bool :=
  let d := now - h.timestamp
  if interval = "5M" then decide (durMinutes d ≤ 5)
  else if interval = "10M" then decide (durMinutes d ≤ 10)
  else if interval = "30M" then decide (durMinutes d ≤ 30)
  else if interval = "1H" then decide (durHours d ≤ 1)
  else if interval = "2H" then decide (durHours d ≤ 2)
  else if interval = "4H" then decide (durHours d ≤ 4)
  else if interval = "8H" then decide (durHours d ≤ 8)
  else if interval = "12H" then decide (durHours d ≤ 12)
  else if interval = "1D" then decide (durDays d ≤ 1)
  else if interval = "1W" then decide (durWeeks d ≤ 1)
  else true

/-- The data_type match of get_chart_data (main.rs lines 467-472); the
catch-all arm selects the total balance. -/
def metricValue (data_type : String) (h : BalanceHistory) : ℚ :=
  if data_type = "sol" then h.sol_balance
  else if data_type = "wsol" then h.wsol_balance
  else h.total_balance

/-- Ordering of history points by timestamp, the key of the
`history.sort_by_key(|h| h.timestamp)` call (main.rs line 446). -/
def histLE (a b : BalanceHistory) : Prop := a.timestamp ≤ b.timestamp

instance : DecidableRel histLE := fun a b => Int.decLe a.timestamp b.timestamp

instance : IsTotal BalanceHistory histLE := ⟨fun a b => Int.le_total a.timestamp b.timestamp⟩

instance : IsTrans BalanceHistory histLE := ⟨fun _ _ _ => Int.le_trans⟩

/-- Ordering of chart points by time, the key of the
`sampled.sort_by_key(|point| point.time)` call (main.rs line 517). -/
def pointLE (a b : ChartDataPoint) : Prop := a.time ≤ b.time

instance : DecidableRel pointLE := fun a b => Int.decLe a.time b.time

instance : IsTotal ChartDataPoint pointLE := ⟨fun a b => Int.le_total a.time b.time⟩

instance : IsTrans ChartDataPoint pointLE := ⟨fun _ _ _ => Int.le_trans⟩

/-- Strict ordering of chart points by time; a chart result that is pairwise
strictly ascending has at most one value per distinct second. -/
def pointLT (a b : ChartDataPoint) : Prop := a.time < b.time

/-- Tail worker of `Vec::dedup_by_key(|point| point.time)`: `last` is the most
recently retained element; elements equal in key to it are dropped. -/
def dedupByTimeAux (last : ChartDataPoint) : List ChartDataPoint → List ChartDataPoint
  | [] => []
  | b :: rest =>
    if last.time = b.time then dedupByTimeAux last rest
    else b :: dedupByTimeAux b rest

/-- `Vec::dedup_by_key(|point| point.time)` (main.rs lines 487 and 518):
drops all but the first of each consecutive run of equal keys. -/
def dedupByTime : List ChartDataPoint → List ChartDataPoint
  | [] => []
  | a :: rest => a :: dedupByTimeAux a rest

/-- Rust `as i64` cast of a nonnegative f64: truncation toward zero. -/
def castTrunc (q : ℚ) : Int := if 0 ≤ q then ⌊q⌋ else ⌈q⌉

/-- One step of the minimum search: keep the incumbent unless the new point
is strictly closer to the target. -/
def minByDistStep (target : Int) (acc : Option ChartDataPoint) (p : ChartDataPoint) :
    Option ChartDataPoint :=
  match acc with
  | none => some p
  | some q => if (p.time - target).natAbs < (q.time - target).natAbs then some p else acc

/-- `chart_data.iter().min_by_key(|point| (point.time - target).abs())`
(main.rs line 509): Rust min_by_key returns the first of equally minimal
elements, which a fold keeping the incumbent on ties reproduces. -/
def minByDist (target : Int) (l : List ChartDataPoint) : Option ChartDataPoint :=
  l.foldl (minByDistStep target) none

/-- The time-based uniform sampling of get_chart_data (main.rs lines
489-528), parameterized by the cap (1000 in the source, with cap - 1 = 999
intervals). -/
def timeSampleCap (cap : Nat) (chart_data : List ChartDataPoint) : List ChartDataPoint :=
  if chart_data.length > cap then
    if chart_data.isEmpty then chart_data
    else
      let start_time := (chart_data.head?.getD ⟨0, 0⟩).time
      let end_time := (chart_data.getLast?.getD ⟨0, 0⟩).time
      let time_span := end_time - start_time
      if time_span ≤ 0 then chart_data
      else
        let sample_interval : ℚ := (time_span : ℚ) / ((cap : ℚ) - 1)
        let sampled := (List.range cap).filterMap fun (i : Nat) =>
          minByDist (start_time + castTrunc ((i : ℚ) * sample_interval)) chart_data
        dedupByTime (List.insertionSort pointLE sampled)
  else chart_data

/-- The sampling stage as the source instantiates it (`> 1000`, `/ 999.0`,
`0..1000`). -/
def timeSample (chart_data : List ChartDataPoint) : List ChartDataPoint :=
  timeSampleCap 1000 chart_data

/-- get_chart_data's preparation stage (main.rs lines 443-487): sort by
timestamp, filter to the window, map to (epoch second, metric value) —
every rational is finite, so the `is_finite && !is_nan` guard keeps every
point — and deduplicate by exact second. -/
def chartPrepared (history : List BalanceHistory) (data_type interval : String)
    (now : Int) : List ChartDataPoint :=
  dedupByTime
    (((List.insertionSort histLE history).filter (windowKeep interval now)).map fun h =>
      { time := epochSeconds h.timestamp, value := metricValue data_type h })

/-- The full get_chart_data pipeline for one wallet's history. -/
def chartPipeline (history : List BalanceHistory) (data_type interval : String)
    (now : Int) : List ChartDataPoint :=
  timeSample (chartPrepared history data_type interval now)

/-- get_chart_data (main.rs line 435): NOT_FOUND (404) for an untracked
wallet, otherwise the prepared-and-sampled chart points. -/
def get_chart_data (wallets : List (String × WalletBalance))
    (wallet data_type interval : String) (now : Int) :
    Except Nat (List ChartDataPoint) :=
  match wallets.lookup wallet with
  | none => .error 404
  | some w => .ok (chartPipeline w.history data_type interval now)

/-! ## Ingestion Loop per-event handlers (main.rs lines 840-890 and 961-1002) -/

/-- The epsilon gating persisted history writes: the literal 0.000001 of
main.rs lines 861 and 978. -/
def persistEpsilon : ℚ := 1 / 1000000

/-- handle_sol_account_update (main.rs lines 961-1002), restricted to an
event whose pubkey is a tracked wallet address (lines 974-997): update the
in-memory state unconditionally, and produce a persisted record only when
the SOL balance moved by more than the epsilon.  Returns the updated wallet
and the record passed to save_wallet_history, if any. -/
def handle_sol_account_update (w : WalletBalance) (lamports : Nat) (now : Int) :
    WalletBalance × Option WalletHistoryRecord :=
  let old_balance := w.sol_balance
  let w := w.update_sol lamports now
  if |w.sol_balance - old_balance| > persistEpsilon then
    (w, some (WalletHistoryRecord.new now w.address w.sol_balance w.wsol_balance))
  else (w, none)

/-- handle_wsol_account_update (main.rs lines 840-890), restricted to an
event on a watched ATA whose token-account payload decodes (lines 853-879):
the raw token amount is scaled by the fixed 9 decimals, the in-memory state
is updated unconditionally, and a persisted record is produced only when
the WSOL balance moved by more than the epsilon. -/
def handle_wsol_account_update (w : WalletBalance) (tokenAmount : Nat) (now : Int) :
    WalletBalance × Option WalletHistoryRecord :=
  let wsol_balance : ℚ := (tokenAmount : ℚ) / 1000000000
  let old_balance := w.wsol_balance
  let w := w.update_wsol wsol_balance now
  if |wsol_balance - old_balance| > persistEpsilon then
    (w, some (WalletHistoryRecord.new now w.address w.sol_balance w.wsol_balance))
  else (w, none)

/-! ## Differential Broadcaster (websocket_connection, main.rs lines 680-780) -/

/-- f64::EPSILON, the broadcaster's change threshold (main.rs lines 705-707). -/
def f64Epsilon : ℚ := 1 / 2 ^ 52

/-- The per-wallet snapshot tuple `(sol, wsol, total, timestamp)` the
broadcaster records each tick (main.rs lines 682 and 687-691). -/
structure WalletSnap where
  sol : ℚ
  wsol : ℚ
  total : ℚ
  ts : Int
deriving Repr, DecidableEq

/-- The snapshot of the whole store taken at the top of a tick (main.rs
lines 687-691); note it records the raw wsol_balance field. -/
def snapshotStore (wallets : List (String × WalletBalance)) : List (String × WalletSnap) :=
  wallets.map fun p => (p.1, ⟨p.2.sol_balance, p.2.wsol_balance, p.2.total_balance, p.2.last_update⟩)

/-- has_change (main.rs lines 698-712): a wallet counts as changed on the
first tick, when it is new, or when any amount moved by more than
f64::EPSILON or the timestamp differs at all. -/
def hasChange (last : Option (List (String × WalletSnap))) (address : String)
    (cur : WalletSnap) : Bool :=
  match last with
  | none => true
  | some last_data =>
    match last_data.lookup address with
    | none => true
    | some prev =>
      decide (|cur.sol - prev.sol| > f64Epsilon) ||
      decide (|cur.wsol - prev.wsol| > f64Epsilon) ||
      decide (|cur.total - prev.total| > f64Epsilon) ||
      decide (cur.ts ≠ prev.ts)

/-- The update entries of one broadcaster tick (main.rs lines 695-741): one
per wallet in the current snapshot that has_change reports as changed. -/
def tickUpdates (current : List (String × WalletSnap))
    (last : Option (List (String × WalletSnap))) : List String :=
  (current.filter fun p => hasChange last p.1 p.2).map Prod.fst

/-- The delete entries of one broadcaster tick (main.rs lines 743-754): one
per wallet present in the previous snapshot but absent from the current
one. -/
def tickDeletes (current : List (String × WalletSnap))
    (last : Option (List (String × WalletSnap))) : List String :=
  match last with
  | none => []
  | some last_data =>
    (last_data.filter fun p => !(current.lookup p.1).isSome).map Prod.fst

/-- One broadcaster tick (main.rs lines 686-771): collect the update and
delete entries; when that list is non-empty a batch message is sent and
last_sent_data is replaced with the current snapshot, otherwise nothing is
sent and last_sent_data is left as it was.  Returns the addresses of the
emitted entries and the new last_sent_data. -/
def broadcastTick (current : List (String × WalletSnap))
    (last : Option (List (String × WalletSnap))) :
    List String × Option (List (String × WalletSnap)) :=
  let all := tickUpdates current last ++ tickDeletes current last
  if all.isEmpty then ([], last) else (all, some current)

/-! ## add_wallet and delete_wallet (main.rs lines 535-671) -/

/-- The rejection reasons of add_wallet, one per early-return arm
(main.rs lines 543-630). -/
inductive AddWalletError
  | emptyName
  | emptyAddress
  | badAddressLength
  | duplicateAddress
  | duplicateName
  | rpcFailed
deriving Repr, DecidableEq

/-- The HTTP status each rejection is surfaced with. -/
def AddWalletError.status : AddWalletError → Nat
  | .emptyName => 400
  | .emptyAddress => 400
  | .badAddressLength => 400
  | .duplicateAddress => 409
  | .duplicateName => 409
  | .rpcFailed => 500

/-- Rust `as u64` cast of a nonnegative f64, used for
`(sol_balance * 1_000_000_000.0) as u64` (main.rs line 588); negative
values saturate to zero. -/
def castTruncNat (q : ℚ) : Nat := (⌊q⌋).toNat

/-- Rust str::trim (main.rs lines 539-540): drop whitespace from both ends,
modelled structurally on the character list. -/
def strTrim (s : String) : String :=
  ⟨((s.data.dropWhile Char.isWhitespace).reverse.dropWhile Char.isWhitespace).reverse⟩

/-- add_wallet (main.rs lines 535-632).  `rpcResult` models the outcome of
query_wallet_balance (some (sol, wsol) on success).  Returns the response,
the updated wallet map, and the records passed to save_wallet_history. -/
def add_wallet (wallets : List (String × WalletBalance)) (nameReq addressReq : String)
    (rpcResult : Option (ℚ × ℚ)) (now : Int) :
    Except AddWalletError Unit × List (String × WalletBalance) × List WalletHistoryRecord :=
  let name := strTrim nameReq
  let address := strTrim addressReq
  if name = "" then (.error .emptyName, wallets, [])
  else if address = "" then (.error .emptyAddress, wallets, [])
  else if address.utf8ByteSize < 32 || address.utf8ByteSize > 44 then
    (.error .badAddressLength, wallets, [])
  else if (wallets.lookup address).isSome then (.error .duplicateAddress, wallets, [])
  else if wallets.any fun p => p.2.name = name then (.error .duplicateName, wallets, [])
  else
    match rpcResult with
    | some (sol_balance, wsol_balance) =>
      let new_wallet := WalletBalance.new address name now
      let new_wallet := new_wallet.update_sol (castTruncNat (sol_balance * 1000000000)) now
      let new_wallet := new_wallet.initialize_wsol wsol_balance now
      let initial_record :=
        WalletHistoryRecord.new now address new_wallet.sol_balance new_wallet.wsol_balance
      (.ok (), wallets ++ [(address, new_wallet)], [initial_record])
    | none => (.error .rpcFailed, wallets, [])

/-! ## Concrete inputs used by counterexamples and witnesses -/

/-- A history point at millisecond `ms` with SOL balance `v` and WSOL 0. -/
def mkHistPt (ms : Int) (v : ℚ) : BalanceHistory :=
  { timestamp := ms, sol_balance := v, wsol_balance := 0, total_balance := v }

/-- 2000 history points spanning exactly 1000 seconds, but covering only the
two epoch-seconds 0 and 1000: 1000 points at 0 ms and 1000 points at
1000000 ms. -/
def clusteredC6History : List BalanceHistory :=
  List.replicate 1000 (mkHistPt 0 1) ++ List.replicate 1000 (mkHistPt 1000000 2)

/-- 2000 history points spanning exactly 1000 seconds and covering all 1001
epoch-seconds 0..1000: 1000 points at milliseconds 0..999 (all within epoch
second 0) followed by one point in each of the seconds 1..1000. -/
def denseC6History : List BalanceHistory :=
  ((List.range 1000).map fun (m : Nat) => mkHistPt (m : Int) 1)
    ++ ((List.range 1000).map fun (s : Nat) => mkHistPt (1000 * ((s : Int) + 1)) 1)

/-- 101 history points, one per second at seconds 0..100. -/
def histC9 : List BalanceHistory :=
  (List.range 101).map fun (s : Nat) => mkHistPt (1000 * (s : Int)) (s : ℚ)

/-- A small concrete wallet used to instantiate universally quantified
theorems. -/
def c5Wallet : WalletBalance :=
  ((WalletBalance.new "C5WalletAddressAAAAAAAAAAAAAAAAA" "c5" 0).update_wsol 1 2000).update_sol 3 2500

/-- A concrete initialized wallet state given by an explicit literal. -/
def c1Wallet : WalletBalance :=
  { address := "C1WalletAddressAAAAAAAAAAAAAAAAA"
    name := "c1"
    sol_balance := 3
    wsol_balance := 1
    wsol_initialized := true
    last_update := 2500
    history := [{ timestamp := 2000, sol_balance := 3, wsol_balance := 1, total_balance := 4 }] }

/-- A previous-tick broadcaster snapshot for wallet "A". -/
def c7Prev : List (String × WalletSnap) := [("A", ⟨0, 0, 0, 0⟩)]

/-- A current-tick snapshot whose amounts moved by exactly f64::EPSILON
(not more), with an unchanged timestamp: no entry counts as changed. -/
def c7Cur : List (String × WalletSnap) := [("A", ⟨f64Epsilon, 0, f64Epsilon, 0⟩)]

/-- A 32-character wallet address. -/
def c8Addr : String := "C8AddressAAAAAAAAAAAAAAAAAAAAAAA"

/-- Another 32-character wallet address. -/
def c8AddrB : String := "C8AddressBBBBBBBBBBBBBBBBBBBBBBB"

/-- A store already tracking c8Addr under the label "alice". -/
def c8Wallets : List (String × WalletBalance) := [(c8Addr, WalletBalance.new c8Addr "alice" 0)]

/-! ## Lemmas -/

namespace WalletBalance

lemma trimFront_length_le (cap : Nat) (l : List BalanceHistory) :
    (trimFront cap l).length ≤ cap := by
  induction l with
  | nil => simp [trimFront]
  | cons x t ih =>
    rw [trimFront]
    split
    · exact ih
    · next h => exact Nat.le_of_not_lt h

lemma trimFront_suffix (cap : Nat) (l : List BalanceHistory) :
    (trimFront cap l) <:+ l := by
  induction l with
  | nil => simp [trimFront]
  | cons x t ih =>
    rw [trimFront]
    split
    · exact ih.trans (List.suffix_cons x t)
    · exact List.suffix_refl _

lemma update_sol_history_of_not_init (w : WalletBalance) (lamports : Nat) (now : Int)
    (h : w.wsol_initialized = false) : (w.update_sol lamports now).history = w.history := by
  simp [update_sol, h]

lemma applyOp_length_le (w : WalletBalance) (op : StoreOp)
    (h : w.history.length ≤ MAX_HISTORY_SIZE) :
    (applyOp w op).history.length ≤ MAX_HISTORY_SIZE := by
  cases op with
  | updateSol lamports now =>
    simp only [applyOp, update_sol]
    split
    · exact trimFront_length_le _ _
    · exact h
  | updateWsol amount now =>
    simp only [applyOp, update_wsol]
    split
    · exact trimFront_length_le _ _
    · exact h
  | initializeWsol amount now =>
    simp only [applyOp, initialize_wsol]
    split
    · exact trimFront_length_le _ _
    · exact h
  | loadHistory records =>
    exact trimFront_length_le _ _

lemma applyOps_length_le (ops : List StoreOp) (w : WalletBalance)
    (h : w.history.length ≤ MAX_HISTORY_SIZE) :
    (applyOps w ops).history.length ≤ MAX_HISTORY_SIZE := by
  induction ops generalizing w with
  | nil => exact h
  | cons op rest ih =>
    exact ih (applyOp w op) (applyOp_length_le w op h)

end WalletBalance

/-! ### Deduplication lemmas -/

lemma dedupByTimeAux_sublist (a : ChartDataPoint) (l : List ChartDataPoint) :
    (dedupByTimeAux a l).Sublist l := by
  induction l generalizing a with
  | nil => simp [dedupByTimeAux]
  | cons b rest ih =>
    rw [dedupByTimeAux]
    split
    · exact (ih a).trans (List.sublist_cons_self b rest)
    · exact (ih b).cons₂ b

lemma dedupByTime_sublist (l : List ChartDataPoint) : (dedupByTime l).Sublist l := by
  cases l with
  | nil => simp [dedupByTime]
  | cons a rest => exact (dedupByTimeAux_sublist a rest).cons₂ a

lemma dedupByTime_length_le (l : List ChartDataPoint) :
    (dedupByTime l).length ≤ l.length :=
  (dedupByTime_sublist l).length_le

lemma dedupByTime_head? (l : List ChartDataPoint) : (dedupByTime l).head? = l.head? := by
  cases l with
  | nil => rfl
  | cons a rest => rfl

lemma dedupByTimeAux_pairwise (a : ChartDataPoint) (l : List ChartDataPoint)
    (h : (a :: l).Pairwise pointLE) : (a :: dedupByTimeAux a l).Pairwise pointLT := by
  induction l generalizing a with
  | nil => simp [dedupByTimeAux, List.Pairwise.nil]
  | cons b rest ih =>
    rw [dedupByTimeAux]
    rcases List.pairwise_cons.mp h with ⟨ha, hbl⟩
    rcases List.pairwise_cons.mp hbl with ⟨hb, hrest⟩
    split
    · next heq =>
      apply ih a
      refine List.pairwise_cons.mpr ⟨fun x hx => ha x (List.mem_cons_of_mem b hx), hrest⟩
    · next hne =>
      have hab : pointLT a b := lt_of_le_of_ne (ha b (List.mem_cons_self b rest)) hne
      have hbd := ih b hbl
      refine List.pairwise_cons.mpr ⟨?_, hbd⟩
      intro x hx
      rcases List.mem_cons.mp hx with rfl | hx
      · exact hab
      · have hxr : x ∈ rest := (dedupByTimeAux_sublist b rest).mem hx
        exact lt_of_lt_of_le hab (hb x hxr)

lemma dedupByTime_pairwise (l : List ChartDataPoint) (h : l.Pairwise pointLE) :
    (dedupByTime l).Pairwise pointLT := by
  cases l with
  | nil => simp [dedupByTime]
  | cons a rest => exact dedupByTimeAux_pairwise a rest h

lemma dedupByTimeAux_eq_self (a : ChartDataPoint) (l : List ChartDataPoint)
    (h : (a :: l).Pairwise pointLT) : dedupByTimeAux a l = l := by
  induction l generalizing a with
  | nil => rfl
  | cons b rest ih =>
    rcases List.pairwise_cons.mp h with ⟨ha, hbl⟩
    rw [dedupByTimeAux]
    split
    · next heq => exact absurd heq (ne_of_lt (ha b (List.mem_cons_self b rest)))
    · next hne => rw [ih b hbl]

lemma dedupByTime_eq_self (l : List ChartDataPoint) (h : l.Pairwise pointLT) :
    dedupByTime l = l := by
  cases l with
  | nil => rfl
  | cons a rest => rw [dedupByTime, dedupByTimeAux_eq_self a rest h]

/-! ### Sortedness of the prepared chart data -/

lemma chartPrepared_pairwise (history : List BalanceHistory) (dt iv : String) (now : Int) :
    (chartPrepared history dt iv now).Pairwise pointLT := by
  apply dedupByTime_pairwise
  have hs : (List.insertionSort histLE history).Pairwise histLE :=
    List.sorted_insertionSort histLE history
  have hf : ((List.insertionSort histLE history).filter (windowKeep iv now)).Pairwise histLE :=
    hs.sublist (List.filter_sublist _)
  rw [List.pairwise_map]
  exact hf.imp fun hab => Int.ediv_le_ediv (by norm_num) hab

/-! ### Guarantees of the time-based sampling -/

lemma head_time_lt_getLast_time (l : List ChartDataPoint) (h : l.Pairwise pointLT)
    (f g : ChartDataPoint) (hf : l.head? = some f) (hg : l.getLast? = some g)
    (hlen : 2 ≤ l.length) : f.time < g.time := by
  cases l with
  | nil => simp at hf
  | cons a rest =>
    obtain rfl : f = a := by simpa using hf.symm
    cases rest with
    | nil => simp at hlen
    | cons b rest2 =>
      rw [List.getLast?_cons_cons] at hg
      have hmem : g ∈ b :: rest2 := List.mem_of_mem_getLast? (by simp [hg])
      exact (List.pairwise_cons.mp h).1 g hmem

lemma timeSampleCap_pairwise_length (cap : Nat) (hcap : 0 < cap)
    (cd : List ChartDataPoint) (h : cd.Pairwise pointLT) :
    (timeSampleCap cap cd).Pairwise pointLT ∧ (timeSampleCap cap cd).length ≤ cap := by
  rw [timeSampleCap]
  split
  · next hgt =>
    cases cd with
    | nil => simp at hgt
    | cons a rest =>
      obtain ⟨g, hg⟩ :=
        Option.isSome_iff_exists.mp (List.getLast?_isSome.mpr (List.cons_ne_nil a rest))
      simp only [List.isEmpty_cons, List.head?_cons, hg, Option.getD_some, if_neg, Bool.false_eq_true,
        not_false_eq_true]
      split
      · next hspan =>
        exfalso
        have hlen2 : 2 ≤ (a :: rest).length := by omega
        have := head_time_lt_getLast_time (a :: rest) h a g (List.head?_cons) hg hlen2
        omega
      · next hspan =>
        constructor
        · exact dedupByTime_pairwise _ (List.sorted_insertionSort pointLE _)
        · calc (dedupByTime (List.insertionSort pointLE
                ((List.range cap).filterMap _))).length
              ≤ (List.insertionSort pointLE ((List.range cap).filterMap _)).length :=
                dedupByTime_length_le _
            _ = ((List.range cap).filterMap _).length :=
                (List.perm_insertionSort pointLE _).length_eq
            _ ≤ (List.range cap).length := List.length_filterMap_le _ _
            _ = cap := List.length_range cap
  · next hle =>
    exact ⟨h, Nat.le_of_not_lt hle⟩

lemma timeSampleCap_of_spanZero (cap : Nat) (cd : List ChartDataPoint)
    (hspan : cd.head?.map (fun p => p.time) = cd.getLast?.map (fun p => p.time)) :
    timeSampleCap cap cd = cd := by
  rw [timeSampleCap]
  split
  · next hgt =>
    cases cd with
    | nil => rfl
    | cons a rest =>
      obtain ⟨g, hg⟩ :=
        Option.isSome_iff_exists.mp (List.getLast?_isSome.mpr (List.cons_ne_nil a rest))
      rw [List.head?_cons, hg] at hspan
      simp at hspan
      have hspan0 : g.time - a.time ≤ 0 := by omega
      simp only [List.isEmpty_cons, List.head?_cons, hg, Option.getD_some, Bool.false_eq_true,
        not_false_eq_true, if_neg, if_pos hspan0]
  · rfl

/-! ## Claim theorems -/

/-- C5: for every account, metric selector and time window, the chart query
returns a sequence strictly ascending in timestamp (hence at most one value
per distinct second) whose length never exceeds the cap of 1000; and when
the observed time span of the deduplicated points is zero, resampling is
skipped and that set is returned unchanged. -/
theorem C5_chart_query_guarantees
    (wallets : List (String × WalletBalance)) (wallet data_type interval : String)
    (now : Int) (w : WalletBalance) (out : List ChartDataPoint)
    (hw : wallets.lookup wallet = some w)
    (hout : get_chart_data wallets wallet data_type interval now = .ok out) :
    (out.map fun p => p.time).Pairwise (fun s t => s < t) ∧
    out.length ≤ 1000 ∧
    (((chartPrepared w.history data_type interval now).head?.map fun p => p.time) =
        ((chartPrepared w.history data_type interval now).getLast?.map fun p => p.time) →
      out = chartPrepared w.history data_type interval now) := by
  have hout2 : out = chartPipeline w.history data_type interval now := by
    rw [get_chart_data, hw] at hout
    exact (Except.ok.inj hout).symm
  subst hout2
  simp only [chartPipeline, timeSample]
  have hprep := chartPrepared_pairwise w.history data_type interval now
  have hmain := timeSampleCap_pairwise_length 1000 (by norm_num) _ hprep
  refine ⟨?_, hmain.2, ?_⟩
  · rw [List.pairwise_map]
    exact hmain.1
  · intro hspan
    exact timeSampleCap_of_spanZero 1000 _ hspan

/-- Witness for C5 at a concrete tracked wallet. -/
theorem C5_chart_query_guarantees_witness :
    ([("W", c5Wallet)].lookup "W" = some c5Wallet) ∧
    (get_chart_data [("W", c5Wallet)] "W" "total" "ALL" 9 =
      .ok (chartPipeline c5Wallet.history "total" "ALL" 9)) ∧
    ((chartPipeline c5Wallet.history "total" "ALL" 9).map fun p => p.time).Pairwise
      (fun s t => s < t) ∧
    (chartPipeline c5Wallet.history "total" "ALL" 9).length ≤ 1000 :=
  ⟨rfl, rfl,
    (C5_chart_query_guarantees [("W", c5Wallet)] "W" "total" "ALL" 9 c5Wallet _ rfl rfl).1,
    (C5_chart_query_guarantees [("W", c5Wallet)] "W" "total" "ALL" 9 c5Wallet _ rfl rfl).2.1⟩

namespace WalletBalance

lemma add_to_history_fields (w : WalletBalance) :
    (w.add_to_history).address = w.address ∧
    (w.add_to_history).sol_balance = w.sol_balance ∧
    (w.add_to_history).wsol_balance = w.wsol_balance ∧
    (w.add_to_history).wsol_initialized = w.wsol_initialized ∧
    (w.add_to_history).last_update = w.last_update := by
  simp [add_to_history]

lemma update_sol_sol_balance (w : WalletBalance) (lamports : Nat) (now : Int) :
    (w.update_sol lamports now).sol_balance = (lamports : ℚ) / 1000000000 := by
  rw [update_sol]
  split
  · exact (add_to_history_fields _).2.1
  · rfl

lemma update_sol_wsol_balance (w : WalletBalance) (lamports : Nat) (now : Int) :
    (w.update_sol lamports now).wsol_balance = w.wsol_balance := by
  rw [update_sol]
  split
  · exact (add_to_history_fields _).2.2.1
  · rfl

lemma update_sol_wsol_initialized (w : WalletBalance) (lamports : Nat) (now : Int) :
    (w.update_sol lamports now).wsol_initialized = w.wsol_initialized := by
  rw [update_sol]
  split
  · exact (add_to_history_fields _).2.2.2.1
  · rfl

lemma update_wsol_wsol_initialized (w : WalletBalance) (amount : ℚ) (now : Int) :
    (w.update_wsol amount now).wsol_initialized = true := by
  rw [update_wsol]
  split
  · exact (add_to_history_fields _).2.2.2.1
  · rfl

lemma initialize_wsol_wsol_initialized (w : WalletBalance) (amount : ℚ) (now : Int) :
    (w.initialize_wsol amount now).wsol_initialized = true := by
  rw [initialize_wsol]
  split
  · exact (add_to_history_fields _).2.2.2.1
  · rfl

lemma load_history_fields (w : WalletBalance) (records : List WalletHistoryRecord) :
    (w.load_history_from_db records).wsol_balance = w.wsol_balance ∧
    (w.load_history_from_db records).wsol_initialized = w.wsol_initialized := by
  simp [load_history_from_db]

lemma trimFront_eq_self_of_le (cap : Nat) (l : List BalanceHistory)
    (h : l.length ≤ cap) : trimFront cap l = l := by
  cases l with
  | nil => rfl
  | cons x t =>
    rw [trimFront]
    exact if_neg (Nat.not_lt.mpr h)

lemma add_to_history_history_of_le (w : WalletBalance)
    (h : w.history.length + 1 ≤ MAX_HISTORY_SIZE) :
    (w.add_to_history).history = w.history ++ [w.historyPoint] := by
  rw [add_to_history]
  exact trimFront_eq_self_of_le _ _ (by simpa using h)

lemma trimFront_ne_nil (cap : Nat) (hcap : 0 < cap) (l : List BalanceHistory)
    (h : l ≠ []) : trimFront cap l ≠ [] := by
  induction l with
  | nil => exact absurd rfl h
  | cons x t ih =>
    rw [trimFront]
    split
    · next hgt =>
      have ht : t ≠ [] := by
        intro h2
        subst h2
        simp at hgt
        omega
      exact ih ht
    · exact List.cons_ne_nil x t

end WalletBalance

/-- C1: for every account state the total balance is the SOL amount when
WSOL is uninitialized and the sum of both amounts otherwise; the same holds
of every snapshot the store appends to history (whose stored WSOL amount is
zero when uninitialized, so that the stored total always equals the sum of
the stored parts), and every served summary's total equals the sum of its
served parts. -/
theorem C1_total_is_primary_plus_secondary :
    (∀ w : WalletBalance,
      w.total_balance =
        if w.wsol_initialized then w.sol_balance + w.wsol_balance else w.sol_balance) ∧
    (∀ w : WalletBalance, ∀ p ∈ (w.add_to_history).history,
      p ∈ w.history ∨
        (p.sol_balance = w.sol_balance ∧
          p.total_balance =
            (if w.wsol_initialized then p.sol_balance + p.wsol_balance else p.sol_balance) ∧
          p.total_balance = p.sol_balance + p.wsol_balance)) ∧
    (∀ w : WalletBalance,
      (w.to_summary).total_balance = (w.to_summary).sol_balance + (w.to_summary).wsol_balance) := by
  refine ⟨?_, ?_, ?_⟩
  · intro w
    rw [WalletBalance.total_balance]
    cases hw : w.wsol_initialized <;> simp
  · intro w p hp
    have hsub : p ∈ w.history ++ [w.historyPoint] :=
      (WalletBalance.trimFront_suffix _ _).sublist.mem hp
    rcases List.mem_append.mp hsub with hmem | hlast
    · exact Or.inl hmem
    · right
      have hp2 : p = w.historyPoint := by simpa using hlast
      subst hp2
      rw [WalletBalance.historyPoint, WalletBalance.total_balance]
      cases hw : w.wsol_initialized <;> simp
  · intro w
    rw [WalletBalance.to_summary, WalletBalance.total_balance]
    cases hw : w.wsol_initialized <;> simp

/-- Witness for C1's history clause at a wallet with initialized WSOL. -/
theorem C1_total_is_primary_plus_secondary_witness :
    (WalletBalance.historyPoint c1Wallet ∈ (c1Wallet.add_to_history).history) ∧
    (WalletBalance.historyPoint c1Wallet ∈ c1Wallet.history ∨
      ((WalletBalance.historyPoint c1Wallet).sol_balance = c1Wallet.sol_balance ∧
        (WalletBalance.historyPoint c1Wallet).total_balance =
          (if c1Wallet.wsol_initialized then
            (WalletBalance.historyPoint c1Wallet).sol_balance +
              (WalletBalance.historyPoint c1Wallet).wsol_balance
          else (WalletBalance.historyPoint c1Wallet).sol_balance) ∧
        (WalletBalance.historyPoint c1Wallet).total_balance =
          (WalletBalance.historyPoint c1Wallet).sol_balance +
            (WalletBalance.historyPoint c1Wallet).wsol_balance)) := by
  have hmem : WalletBalance.historyPoint c1Wallet ∈ (c1Wallet.add_to_history).history := by
    rw [WalletBalance.add_to_history_history_of_le c1Wallet
      (by simp [c1Wallet, MAX_HISTORY_SIZE])]
    exact List.mem_append_right _ (List.mem_singleton.mpr rfl)
  exact ⟨hmem, C1_total_is_primary_plus_secondary.2.1 c1Wallet _ hmem⟩

/-- C2: starting from a fresh account, after any sequence of store
operations (SOL updates, WSOL updates, WSOL initialization, seeding from
the persistent log) the history length never exceeds MAX_HISTORY_SIZE; and
eviction is always from the front: the history after an append is a suffix
of the old history extended with the new point, and the history after
seeding is a suffix of the seeded records. -/
theorem C2_history_cap_and_front_eviction :
    (∀ (address name : String) (now : Int) (ops : List StoreOp),
      (applyOps (WalletBalance.new address name now) ops).history.length ≤ MAX_HISTORY_SIZE) ∧
    (∀ w : WalletBalance,
      (w.add_to_history).history <:+ w.history ++ [w.historyPoint]) ∧
    (∀ (w : WalletBalance) (records : List WalletHistoryRecord),
      (w.load_history_from_db records).history <:+ records.map fun r =>
        { timestamp := r.timestamp
          sol_balance := r.sol_balance
          wsol_balance := r.wsol_balance
          total_balance := r.total_balance }) := by
  refine ⟨?_, ?_, ?_⟩
  · intro address name now ops
    exact WalletBalance.applyOps_length_le ops _ (by simp [WalletBalance.new, MAX_HISTORY_SIZE])
  · intro w
    exact WalletBalance.trimFront_suffix _ _
  · intro w records
    exact WalletBalance.trimFront_suffix _ _

/-- C3: a history point is appended only when WSOL is initialized — an SOL
update on an account whose WSOL was never established leaves history
unchanged, and any store operation that changes history leaves the account
with the initialized flag set — except that WSOL initialization always
guarantees at least one history point afterwards. -/
theorem C3_append_only_when_initialized :
    (∀ (w : WalletBalance) (lamports : Nat) (now : Int), w.wsol_initialized = false →
      (w.update_sol lamports now).history = w.history) ∧
    (∀ (w : WalletBalance) (op : StoreOp), (∀ records, op ≠ .loadHistory records) →
      (applyOp w op).history ≠ w.history → (applyOp w op).wsol_initialized = true) ∧
    (∀ (w : WalletBalance) (amount : ℚ) (now : Int),
      (w.initialize_wsol amount now).history ≠ []) := by
  refine ⟨?_, ?_, ?_⟩
  · intro w lamports now h
    exact WalletBalance.update_sol_history_of_not_init w lamports now h
  · intro w op hnl hchange
    cases op with
    | updateSol lamports now =>
      rw [applyOp] at hchange ⊢
      rw [WalletBalance.update_sol_wsol_initialized]
      cases hw : w.wsol_initialized with
      | false =>
        exact absurd (WalletBalance.update_sol_history_of_not_init w lamports now hw) hchange
      | true => rfl
    | updateWsol amount now =>
      exact WalletBalance.update_wsol_wsol_initialized w amount now
    | initializeWsol amount now =>
      exact WalletBalance.initialize_wsol_wsol_initialized w amount now
    | loadHistory records =>
      exact absurd rfl (hnl records)
  · intro w amount now
    rw [WalletBalance.initialize_wsol]
    split
    · next hempty =>
      apply WalletBalance.trimFront_ne_nil MAX_HISTORY_SIZE (by simp [MAX_HISTORY_SIZE])
      simp
    · next hempty =>
      simpa [List.isEmpty_iff] using hempty

/-- Witness for C3 at concrete wallets. -/
theorem C3_append_only_when_initialized_witness :
    ((WalletBalance.new "A" "a" 0).wsol_initialized = false) ∧
    ((WalletBalance.new "A" "a" 0).update_sol 5 1).history = (WalletBalance.new "A" "a" 0).history ∧
    ((∀ records, StoreOp.updateWsol 1 1 ≠ StoreOp.loadHistory records) ∧
      (applyOp (WalletBalance.new "A" "a" 0) (.updateWsol 1 1)).history ≠
        (WalletBalance.new "A" "a" 0).history ∧
      (applyOp (WalletBalance.new "A" "a" 0) (.updateWsol 1 1)).wsol_initialized = true) ∧
    ((WalletBalance.new "A" "a" 0).initialize_wsol 1 1).history ≠ [] :=
  have hne : (applyOp (WalletBalance.new "A" "a" 0) (.updateWsol 1 1)).history ≠
      (WalletBalance.new "A" "a" 0).history := by
    simp [applyOp, WalletBalance.update_wsol, WalletBalance.add_to_history,
      WalletBalance.new, WalletBalance.trimFront, MAX_HISTORY_SIZE]
  ⟨rfl,
    C3_append_only_when_initialized.1 (WalletBalance.new "A" "a" 0) 5 1 rfl,
    ⟨fun records h => StoreOp.noConfusion h,
      hne,
      C3_append_only_when_initialized.2.1 (WalletBalance.new "A" "a" 0) (.updateWsol 1 1)
        (fun records h => StoreOp.noConfusion h) hne⟩,
    C3_append_only_when_initialized.2.2 (WalletBalance.new "A" "a" 0) 1 1⟩

/-- C10: for every reachable account state, an unset initialized flag means
the stored WSOL amount is exactly 0, so the 0 substituted for uninitialized
accounts in summaries always equals the stored value. -/
theorem C10_uninitialized_implies_wsol_zero (w : WalletBalance) (hw : Reachable w)
    (h : w.wsol_initialized = false) :
    w.wsol_balance = 0 ∧ (w.to_summary).wsol_balance = w.wsol_balance := by
  have key : ∀ v : WalletBalance, Reachable v → v.wsol_initialized = false →
      v.wsol_balance = 0 := by
    intro v hv
    induction hv with
    | new address name now => intro; rfl
    | update_sol lamports now hr ih =>
      intro h2
      rw [WalletBalance.update_sol_wsol_balance]
      exact ih (by rwa [WalletBalance.update_sol_wsol_initialized] at h2)
    | update_wsol amount now hr ih =>
      intro h2
      rw [WalletBalance.update_wsol_wsol_initialized] at h2
      exact absurd h2 (by simp)
    | initialize_wsol amount now hr ih =>
      intro h2
      rw [WalletBalance.initialize_wsol_wsol_initialized] at h2
      exact absurd h2 (by simp)
    | load records hr ih =>
      intro h2
      rw [(WalletBalance.load_history_fields _ records).1]
      exact ih (by rwa [(WalletBalance.load_history_fields _ records).2] at h2)
  refine ⟨key w hw h, ?_⟩
  rw [WalletBalance.to_summary, h]
  simp [key w hw h]

/-- Witness for C10 at a reachable uninitialized state. -/
theorem C10_uninitialized_implies_wsol_zero_witness :
    Reachable ((WalletBalance.new "A" "a" 0).update_sol 5 1) ∧
    ((WalletBalance.new "A" "a" 0).update_sol 5 1).wsol_initialized = false ∧
    ((WalletBalance.new "A" "a" 0).update_sol 5 1).wsol_balance = 0 := by
  have hr : Reachable ((WalletBalance.new "A" "a" 0).update_sol 5 1) :=
    .update_sol 5 1 (.new "A" "a" 0)
  have hflag : ((WalletBalance.new "A" "a" 0).update_sol 5 1).wsol_initialized = false := by
    rw [WalletBalance.update_sol_wsol_initialized]
    rfl
  exact ⟨hr, hflag, (C10_uninitialized_implies_wsol_zero _ hr hflag).1⟩

/-- C4: during per-event ingestion the in-memory state is updated
unconditionally, but a persisted history record is produced exactly when
the relevant amount (SOL for wallet-account events, WSOL for ATA events)
moved by more than the 1e-6 epsilon. -/
theorem C4_persist_only_above_epsilon :
    (∀ (w : WalletBalance) (lamports : Nat) (now : Int),
      (handle_sol_account_update w lamports now).1 = w.update_sol lamports now ∧
      (((handle_sol_account_update w lamports now).2).isSome ↔
        |(lamports : ℚ) / 1000000000 - w.sol_balance| > persistEpsilon)) ∧
    (∀ (w : WalletBalance) (tokenAmount : Nat) (now : Int),
      (handle_wsol_account_update w tokenAmount now).1 =
        w.update_wsol ((tokenAmount : ℚ) / 1000000000) now ∧
      (((handle_wsol_account_update w tokenAmount now).2).isSome ↔
        |(tokenAmount : ℚ) / 1000000000 - w.wsol_balance| > persistEpsilon)) := by
  constructor
  · intro w lamports now
    rw [handle_sol_account_update]
    simp only [WalletBalance.update_sol_sol_balance]
    split
    · next hgt => simpa using hgt
    · next hle => simpa using hle
  · intro w tokenAmount now
    rw [handle_wsol_account_update]
    split
    · next hgt => simpa using hgt
    · next hle => simpa using hle

/-- C7 as the spec states it is FALSE: on a tick where the change/removal
list is empty, the previous comparison set is NOT replaced by the current
snapshot.  Concretely, with a previous snapshot of wallet "A" at all-zero
amounts and a current snapshot whose sol and total amounts moved by exactly
f64::EPSILON (not strictly more) with the same timestamp, no entry is
emitted and last_sent_data keeps the OLD snapshot. -/
theorem C7_counterexample :
    (broadcastTick c7Cur (some c7Prev)).1 = [] ∧
    (broadcastTick c7Cur (some c7Prev)).2 = some c7Prev ∧
    ¬((broadcastTick c7Cur (some c7Prev)).2 = some c7Cur) := by
  have hchange : hasChange (some c7Prev) "A" ⟨f64Epsilon, 0, f64Epsilon, 0⟩ = false := by
    rw [hasChange]
    rw [show List.lookup "A" c7Prev = some ⟨0, 0, 0, 0⟩ from rfl]
    simp only [Bool.or_eq_false_iff, decide_eq_false_iff_not, not_lt, gt_iff_lt]
    have habs : |f64Epsilon - (0 : ℚ)| = f64Epsilon := by
      rw [sub_zero]
      exact abs_of_pos (by norm_num [f64Epsilon])
    refine ⟨⟨⟨?_, ?_⟩, ?_⟩, ?_⟩
    · rw [habs]
    · norm_num [f64Epsilon]
    · rw [habs]
    · simp
  have hupd : tickUpdates c7Cur (some c7Prev) = [] := by
    simp only [tickUpdates, c7Cur, List.filter_cons, List.filter_nil, hchange,
      Bool.false_eq_true, if_false, List.map_nil]
  have hdel : tickDeletes c7Cur (some c7Prev) = [] := by
    rw [tickDeletes]
    simp only [c7Prev, List.filter_cons, List.filter_nil]
    rw [show c7Cur.lookup "A" = some ⟨f64Epsilon, 0, f64Epsilon, 0⟩ from rfl]
    simp
  have htick : broadcastTick c7Cur (some c7Prev) = ([], some c7Prev) := by
    simp [broadcastTick, hupd, hdel]
  refine ⟨by rw [htick], by rw [htick], ?_⟩
  rw [htick]
  intro hcontra
  have heq : c7Prev = c7Cur := Option.some.inj hcontra
  have h3 : (0 : ℚ) = f64Epsilon := by
    have := congrArg (fun l => ((l.headD ("", ⟨0, 0, 0, 0⟩)).2).sol) heq
    simpa [c7Prev, c7Cur] using this
  norm_num [f64Epsilon] at h3

/-- C7 amended: on every broadcaster tick, the previous comparison set is
replaced with the current snapshot exactly when the change/removal list is
non-empty (the only case in which a batch is sent); on a tick with an empty
list the previous set is left unchanged. -/
theorem C7_previous_replaced_only_when_sent
    (current : List (String × WalletSnap)) (last : Option (List (String × WalletSnap))) :
    (broadcastTick current last).2 =
      if ((broadcastTick current last).1).isEmpty then last else some current := by
  by_cases h : (tickUpdates current last ++ tickDeletes current last).isEmpty
  · simp [broadcastTick, h]
  · simp [broadcastTick, h]

/-- C8: add_wallet rejects with Conflict (409) "address already exists"
when the trimmed id is already tracked, and with Conflict (409) "name
already exists" when the trimmed label is used by another account; in both
rejection cases the tracked-wallet map is returned unchanged and no history
record is written. -/
theorem C8_add_wallet_conflict_rejections
    (wallets : List (String × WalletBalance)) (nameReq addressReq : String)
    (rpcResult : Option (ℚ × ℚ)) (now : Int)
    (hname : ¬(strTrim nameReq = "")) (haddr : ¬(strTrim addressReq = ""))
    (hlen1 : 32 ≤ (strTrim addressReq).utf8ByteSize)
    (hlen2 : (strTrim addressReq).utf8ByteSize ≤ 44) :
    ((wallets.lookup (strTrim addressReq)).isSome = true →
      add_wallet wallets nameReq addressReq rpcResult now =
        (.error .duplicateAddress, wallets, []) ∧
      AddWalletError.duplicateAddress.status = 409) ∧
    ((wallets.lookup (strTrim addressReq)).isSome = false →
      (wallets.any fun p => p.2.name = strTrim nameReq) = true →
      add_wallet wallets nameReq addressReq rpcResult now =
        (.error .duplicateName, wallets, []) ∧
      AddWalletError.duplicateName.status = 409) := by
  have hlenc : ((strTrim addressReq).utf8ByteSize < 32 ||
      (strTrim addressReq).utf8ByteSize > 44) = false := by
    simp only [Bool.or_eq_false_iff, decide_eq_false_iff_not, not_lt, gt_iff_lt]
    exact ⟨hlen1, hlen2⟩
  constructor
  · intro hdup
    refine ⟨?_, rfl⟩
    rw [add_wallet.eq_def]
    rw [if_neg hname, if_neg haddr]
    rw [show ((strTrim addressReq).utf8ByteSize < 32 ||
      (strTrim addressReq).utf8ByteSize > 44) = false from hlenc]
    rw [if_neg (by simp), if_pos hdup]
  · intro hdup hany
    refine ⟨?_, rfl⟩
    rw [add_wallet.eq_def]
    rw [if_neg hname, if_neg haddr]
    rw [show ((strTrim addressReq).utf8ByteSize < 32 ||
      (strTrim addressReq).utf8ByteSize > 44) = false from hlenc]
    rw [if_neg (by simp), if_neg (by simp [hdup]), if_pos hany]

/-- Witness for C8: rejecting a duplicate address and a duplicate label
against a store already tracking c8Addr under the label "alice". -/
theorem C8_add_wallet_conflict_rejections_witness :
    (¬(strTrim "bob" = "") ∧ ¬(strTrim c8Addr = "") ∧
      32 ≤ (strTrim c8Addr).utf8ByteSize ∧ (strTrim c8Addr).utf8ByteSize ≤ 44 ∧
      (c8Wallets.lookup (strTrim c8Addr)).isSome = true ∧
      add_wallet c8Wallets "bob" c8Addr none 0 =
        (.error .duplicateAddress, c8Wallets, [])) ∧
    (¬(strTrim "alice" = "") ∧ ¬(strTrim c8AddrB = "") ∧
      32 ≤ (strTrim c8AddrB).utf8ByteSize ∧ (strTrim c8AddrB).utf8ByteSize ≤ 44 ∧
      (c8Wallets.lookup (strTrim c8AddrB)).isSome = false ∧
      (c8Wallets.any fun p => p.2.name = strTrim "alice") = true ∧
      add_wallet c8Wallets "alice" c8AddrB none 0 =
        (.error .duplicateName, c8Wallets, [])) := by
  constructor
  · refine ⟨by decide, by decide, by decide, by decide, by decide, ?_⟩
    exact ((C8_add_wallet_conflict_rejections c8Wallets "bob" c8Addr none 0
      (by decide) (by decide) (by decide) (by decide)).1 (by decide)).1
  · refine ⟨by decide, by decide, by decide, by decide, by decide, by decide, ?_⟩
    exact (((C8_add_wallet_conflict_rejections c8Wallets "alice" c8AddrB none 0
      (by decide) (by decide) (by decide) (by decide)).2 (by decide)) (by decide)).1

/-! ### Exact-match behaviour of the nearest-point search -/

lemma minByDist_foldl_stay (target : Int) (q : ChartDataPoint)
    (hq : (q.time - target).natAbs = 0) (l : List ChartDataPoint) :
    l.foldl (minByDistStep target) (some q) = some q := by
  induction l with
  | nil => rfl
  | cons b rest ih =>
    rw [List.foldl_cons]
    rw [show minByDistStep target (some q) b = some q from by
      rw [minByDistStep]
      rw [if_neg]
      omega]
    exact ih

lemma minByDist_foldl_exact (target : Int) (p : ChartDataPoint) (ht : p.time = target)
    (l : List ChartDataPoint) :
    ∀ acc : Option ChartDataPoint,
      (acc = none ∨ ∃ r, acc = some r ∧ 0 < (r.time - target).natAbs) →
      p ∈ l → (∀ x ∈ l, x.time = target → x = p) →
      l.foldl (minByDistStep target) acc = some p := by
  have hp0 : (p.time - target).natAbs = 0 := by
    rw [ht]
    omega
  induction l with
  | nil =>
    intro acc _ hmem _
    simp at hmem
  | cons b rest ih =>
    intro acc hacc hmem huniq
    rw [List.foldl_cons]
    by_cases hb : b = p
    · subst hb
      rw [show minByDistStep target acc b = some b from by
        rcases hacc with rfl | ⟨r, rfl, hr⟩
        · rfl
        · rw [minByDistStep]
          rw [if_pos]
          omega]
      exact minByDist_foldl_stay target b hp0 rest
    · have hbt : ¬(b.time = target) := fun h => hb (huniq b (List.mem_cons_self b rest) h)
      have hbpos : 0 < (b.time - target).natAbs := by omega
      have hmem2 : p ∈ rest := by
        rcases List.mem_cons.mp hmem with heq | h
        · exact absurd heq.symm hb
        · exact h
      refine ih ?_ ?_ hmem2 (fun x hx => huniq x (List.mem_cons_of_mem b hx))
      right
      rcases hacc with rfl | ⟨r, rfl, hr⟩
      · exact ⟨b, rfl, hbpos⟩
      · rw [minByDistStep]
        split
        · exact ⟨b, rfl, hbpos⟩
        · exact ⟨r, rfl, hr⟩

lemma minByDist_exact (l : List ChartDataPoint) (target : Int) (p : ChartDataPoint)
    (hp : p ∈ l) (ht : p.time = target) (huniq : ∀ x ∈ l, x.time = target → x = p) :
    minByDist target l = some p :=
  minByDist_foldl_exact target p ht l none (Or.inl rfl) hp huniq

lemma filterMap_eq_map_of_forall {α β : Type} (l : List α) (f : α → Option β) (g : α → β)
    (h : ∀ x ∈ l, f x = some (g x)) : l.filterMap f = l.map g := by
  induction l with
  | nil => rfl
  | cons a rest ih =>
    rw [List.filterMap_cons, h a (List.mem_cons_self a rest), List.map_cons,
      ih fun x hx => h x (List.mem_cons_of_mem a hx)]

lemma dedupByTimeAux_replicate_same (a : ChartDataPoint) (n : Nat)
    (l : List ChartDataPoint) :
    dedupByTimeAux a (List.replicate n a ++ l) = dedupByTimeAux a l := by
  induction n with
  | zero => rfl
  | succ n ih =>
    rw [List.replicate_succ, List.cons_append, dedupByTimeAux, if_pos rfl]
    exact ih

/-! ### The dense-input characterisation of the time-based sampling -/

lemma castTrunc_target (cap : Nat) (hcap : 2 ≤ cap) (i : Nat) (hi : i < cap) :
    castTrunc ((i : ℚ) * ((cap : ℚ) / ((cap : ℚ) - 1))) =
      ((if i < cap - 1 then i else cap : Nat) : Int) := by
  have hc1 : (0 : ℚ) < (cap : ℚ) - 1 := by
    have h2 : (2 : ℚ) ≤ (cap : ℚ) := by exact_mod_cast hcap
    linarith
  have hnonneg : 0 ≤ (i : ℚ) * ((cap : ℚ) / ((cap : ℚ) - 1)) := by
    apply mul_nonneg (Nat.cast_nonneg i)
    exact div_nonneg (Nat.cast_nonneg cap) (le_of_lt hc1)
  rw [castTrunc, if_pos hnonneg]
  split
  · next hilt =>
    have hi2 : (i : ℚ) ≤ (cap : ℚ) - 2 := by
      have : i + 2 ≤ cap := by omega
      have := (Nat.cast_le (α := ℚ)).mpr this
      push_cast at this
      linarith
    rw [Int.floor_eq_iff]
    constructor
    · push_cast
      rw [← mul_div_assoc]
      rw [le_div_iff₀ hc1]
      have hi0 : (0 : ℚ) ≤ (i : ℚ) := Nat.cast_nonneg i
      ring_nf
      nlinarith
    · push_cast
      rw [← mul_div_assoc]
      rw [div_lt_iff₀ hc1]
      nlinarith
  · next hige =>
    have hieq : (i : ℚ) = (cap : ℚ) - 1 := by
      have : i = cap - 1 := by omega
      subst this
      push_cast [Nat.cast_sub (by omega : 1 ≤ cap)]
      ring
    rw [hieq]
    rw [show ((cap : ℚ) - 1) * ((cap : ℚ) / ((cap : ℚ) - 1)) = (cap : ℚ) from by
      field_simp]
    exact_mod_cast Int.floor_natCast cap

lemma timeSampleCap_unfold (cap : Nat) (cd : List ChartDataPoint)
    (f l : ChartDataPoint)
    (hgt : cd.length > cap) (hf : cd.head? = some f) (hl : cd.getLast? = some l)
    (hspan : 0 < l.time - f.time) :
    timeSampleCap cap cd = dedupByTime (List.insertionSort pointLE
      ((List.range cap).filterMap fun (i : Nat) =>
        minByDist (f.time + castTrunc ((i : ℚ) *
          (((l.time - f.time : Int) : ℚ) / ((cap : ℚ) - 1)))) cd)) := by
  have hne : cd ≠ [] := by
    intro h
    rw [h] at hgt
    simp at hgt
  rw [timeSampleCap, if_pos hgt]
  rw [if_neg (by simp [List.isEmpty_iff, hne])]
  simp only [hf, hl, Option.getD_some]
  rw [if_neg (by omega : ¬(l.time - f.time ≤ 0))]

lemma timeSampleCap_dense (cap : Nat) (hcap : 2 ≤ cap) (s₀ : Int) (v : Nat → ℚ) :
    timeSampleCap cap ((List.range (cap + 1)).map fun (s : Nat) =>
        ({ time := s₀ + (s : Int), value := v s } : ChartDataPoint)) =
      (List.range cap).map
        ((fun (s : Nat) => ({ time := s₀ + (s : Int), value := v s } : ChartDataPoint)) ∘
          fun (i : Nat) => if i < cap - 1 then i else cap) := by
  set g : Nat → ChartDataPoint :=
    fun (s : Nat) => ({ time := s₀ + (s : Int), value := v s } : ChartDataPoint) with hg
  have htime : ∀ s, (g s).time = s₀ + (s : Int) := fun s => rfl
  have hlen : ((List.range (cap + 1)).map g).length = cap + 1 := by simp
  have hhead : ((List.range (cap + 1)).map g).head? = some (g 0) := by
    rw [List.range_succ_eq_map]
    rfl
  have hlast : ((List.range (cap + 1)).map g).getLast? = some (g cap) := by
    rw [List.range_succ, List.map_append, List.map_singleton]
    exact List.getLast?_concat _
  have hspan : 0 < (g cap).time - (g 0).time := by
    rw [htime, htime]
    omega
  rw [timeSampleCap_unfold cap _ (g 0) (g cap) (by omega) hhead hlast hspan]
  have hspan2 : (g cap).time - (g 0).time = (cap : Int) := by
    rw [htime, htime]
    omega
  rw [hspan2]
  have huniq : ∀ t : Nat, ∀ x ∈ (List.range (cap + 1)).map g,
      x.time = s₀ + (t : Int) → x = g t := by
    intro t x hx hxt
    rcases List.mem_map.mp hx with ⟨s, hs, rfl⟩
    have hst : (s : Int) = (t : Int) := by
      have h2 := hxt
      rw [htime] at h2
      omega
    have : s = t := by exact_mod_cast hst
    rw [this]
  have hmin : ∀ t : Nat, t < cap + 1 →
      minByDist (s₀ + (t : Int)) ((List.range (cap + 1)).map g) = some (g t) := by
    intro t ht
    exact minByDist_exact _ _ (g t)
      (List.mem_map.mpr ⟨t, List.mem_range.mpr ht, rfl⟩) (htime t) (huniq t)
  have hsampled : ((List.range cap).filterMap fun (i : Nat) =>
        minByDist ((g 0).time + castTrunc ((i : ℚ) *
          (((cap : Int) : ℚ) / ((cap : ℚ) - 1)))) ((List.range (cap + 1)).map g)) =
      (List.range cap).map (g ∘ fun i => if i < cap - 1 then i else cap) := by
    apply filterMap_eq_map_of_forall
    intro i hi
    have hi2 : i < cap := List.mem_range.mp hi
    have hcast : (((cap : Int) : ℚ)) = (cap : ℚ) := by push_cast; rfl
    rw [hcast, castTrunc_target cap hcap i hi2, htime]
    have htlt : (if i < cap - 1 then i else cap) < cap + 1 := by
      split <;> omega
    rw [show s₀ + ((0 : Nat) : Int) + ((if i < cap - 1 then i else cap : Nat) : Int) =
        s₀ + ((if i < cap - 1 then i else cap : Nat) : Int) from by push_cast; ring]
    exact hmin _ htlt
  rw [hsampled]
  have hpair : ((List.range cap).map
      (g ∘ fun i => if i < cap - 1 then i else cap)).Pairwise pointLT := by
    rw [List.pairwise_map]
    apply List.Pairwise.imp_of_mem ?_ (List.pairwise_lt_range cap)
    intro a b ha hb hab
    have ha2 : a < cap := List.mem_range.mp ha
    have hb2 : b < cap := List.mem_range.mp hb
    show (g _).time < (g _).time
    rw [htime, htime]
    have hlt : (if a < cap - 1 then a else cap) < (if b < cap - 1 then b else cap) := by
      split <;> split <;> omega
    have hlt2 : ((fun (i : Nat) => if i < cap - 1 then i else cap) a) <
        ((fun (i : Nat) => if i < cap - 1 then i else cap) b) := hlt
    omega
  have hsorted : ((List.range cap).map
      (g ∘ fun i => if i < cap - 1 then i else cap)).Pairwise pointLE :=
    hpair.imp fun h => le_of_lt h
  rw [List.Sorted.insertionSort_eq hsorted]
  exact dedupByTime_eq_self _ hpair

/-! ### Evaluating the chart preparation on the concrete inputs -/

lemma windowKeep_all (now : Int) (h : BalanceHistory) : windowKeep "ALL" now h = true := rfl

lemma chartPrepared_histC9 : chartPrepared histC9 "total" "ALL" 0 =
    (List.range 101).map fun (s : Nat) =>
      ({ time := (0 : Int) + (s : Int), value := (s : ℚ) } : ChartDataPoint) := by
  have hsorted : List.Pairwise histLE histC9 := by
    rw [histC9, List.pairwise_map]
    apply List.Pairwise.imp ?_ (List.pairwise_lt_range 101)
    intro a b hab
    show (1000 * (a : Int)) ≤ 1000 * (b : Int)
    omega
  rw [chartPrepared]
  rw [List.Sorted.insertionSort_eq hsorted]
  rw [show histC9.filter (windowKeep "ALL" 0) = histC9 from
    List.filter_eq_self.mpr fun a _ => windowKeep_all 0 a]
  rw [histC9, List.map_map]
  rw [show (List.range 101).map ((fun h =>
        ({ time := epochSeconds h.timestamp, value := metricValue "total" h } :
          ChartDataPoint)) ∘ fun (s : Nat) => mkHistPt (1000 * (s : Int)) ((s : ℚ))) =
      (List.range 101).map (fun (s : Nat) =>
        ({ time := (0 : Int) + (s : Int), value := (s : ℚ) } : ChartDataPoint)) from by
    apply List.map_congr_left
    intro s hs
    show ({ time := epochSeconds (1000 * (s : Int)), value := (s : ℚ) } : ChartDataPoint) = _
    rw [show epochSeconds (1000 * (s : Int)) = (0 : Int) + (s : Int) from by
      rw [epochSeconds, Int.mul_ediv_cancel_left _ (by norm_num)]
      omega]]
  apply dedupByTime_eq_self
  rw [List.pairwise_map]
  apply List.Pairwise.imp ?_ (List.pairwise_lt_range 101)
  intro a b hab
  show (0 : Int) + (a : Int) < (0 : Int) + (b : Int)
  omega

lemma map_eq_replicate {α β : Type} (l : List α) (f : α → β) (c : β)
    (h : ∀ x ∈ l, f x = c) : l.map f = List.replicate l.length c := by
  induction l with
  | nil => rfl
  | cons a rest ih =>
    rw [List.map_cons, h a (List.mem_cons_self a rest), List.length_cons,
      List.replicate_succ, ih fun x hx => h x (List.mem_cons_of_mem a hx)]

lemma chartPrepared_denseC6 : chartPrepared denseC6History "total" "ALL" 0 =
    (List.range 1001).map fun (s : Nat) =>
      ({ time := (0 : Int) + (s : Int), value := (1 : ℚ) } : ChartDataPoint) := by
  have hsorted : List.Pairwise histLE denseC6History := by
    rw [denseC6History, List.pairwise_append]
    refine ⟨?_, ?_, ?_⟩
    · rw [List.pairwise_map]
      apply List.Pairwise.imp ?_ (List.pairwise_lt_range 1000)
      intro a b hab
      show (a : Int) ≤ (b : Int)
      omega
    · rw [List.pairwise_map]
      apply List.Pairwise.imp ?_ (List.pairwise_lt_range 1000)
      intro a b hab
      show 1000 * ((a : Int) + 1) ≤ 1000 * ((b : Int) + 1)
      omega
    · intro a ha b hb
      rcases List.mem_map.mp ha with ⟨m, hm, rfl⟩
      rcases List.mem_map.mp hb with ⟨t, ht, rfl⟩
      have hm2 : m < 1000 := List.mem_range.mp hm
      show (m : Int) ≤ 1000 * ((t : Int) + 1)
      omega
  rw [chartPrepared]
  rw [List.Sorted.insertionSort_eq hsorted]
  rw [show denseC6History.filter (windowKeep "ALL" 0) = denseC6History from
    List.filter_eq_self.mpr fun a _ => windowKeep_all 0 a]
  rw [denseC6History, List.map_append, List.map_map, List.map_map]
  rw [show (List.range 1000).map ((fun h =>
        ({ time := epochSeconds h.timestamp, value := metricValue "total" h } :
          ChartDataPoint)) ∘ fun (m : Nat) => mkHistPt (m : Int) 1) =
      List.replicate 1000 ({ time := (0 : Int), value := (1 : ℚ) } : ChartDataPoint) from by
    have h2 := map_eq_replicate (List.range 1000)
      ((fun h => ({ time := epochSeconds h.timestamp, value := metricValue "total" h } :
        ChartDataPoint)) ∘ fun (m : Nat) => mkHistPt (m : Int) 1)
      ({ time := (0 : Int), value := (1 : ℚ) } : ChartDataPoint) ?_
    · rwa [List.length_range] at h2
    intro m hm
    have hm2 : m < 1000 := List.mem_range.mp hm
    show ({ time := epochSeconds (m : Int), value := (1 : ℚ) } : ChartDataPoint) = _
    rw [show epochSeconds (m : Int) = (0 : Int) from
      Int.ediv_eq_zero_of_lt (by omega) (by omega)]]
  rw [show (List.range 1000).map ((fun h =>
        ({ time := epochSeconds h.timestamp, value := metricValue "total" h } :
          ChartDataPoint)) ∘ fun (s : Nat) => mkHistPt (1000 * ((s : Int) + 1)) 1) =
      (List.range 1000).map (fun (s : Nat) =>
        ({ time := (s : Int) + 1, value := (1 : ℚ) } : ChartDataPoint)) from by
    apply List.map_congr_left
    intro s hs
    show ({ time := epochSeconds (1000 * ((s : Int) + 1)), value := (1 : ℚ) } :
      ChartDataPoint) = _
    rw [show epochSeconds (1000 * ((s : Int) + 1)) = (s : Int) + 1 from by
      rw [epochSeconds, Int.mul_ediv_cancel_left _ (by norm_num)]]]
  rw [show List.replicate 1000 ({ time := (0 : Int), value := (1 : ℚ) } : ChartDataPoint) =
      ({ time := (0 : Int), value := (1 : ℚ) } : ChartDataPoint) ::
        List.replicate 999 ({ time := (0 : Int), value := (1 : ℚ) } : ChartDataPoint) from rfl]
  rw [List.cons_append, dedupByTime, dedupByTimeAux_replicate_same]
  rw [show dedupByTimeAux ({ time := (0 : Int), value := (1 : ℚ) } : ChartDataPoint)
        ((List.range 1000).map fun (s : Nat) =>
          ({ time := (s : Int) + 1, value := (1 : ℚ) } : ChartDataPoint)) =
      (List.range 1000).map (fun (s : Nat) =>
        ({ time := (s : Int) + 1, value := (1 : ℚ) } : ChartDataPoint)) from by
    apply dedupByTimeAux_eq_self
    refine List.pairwise_cons.mpr ⟨?_, ?_⟩
    · intro x hx
      rcases List.mem_map.mp hx with ⟨s, hs, rfl⟩
      show (0 : Int) < (s : Int) + 1
      omega
    · rw [List.pairwise_map]
      apply List.Pairwise.imp ?_ (List.pairwise_lt_range 1000)
      intro a b hab
      show (a : Int) + 1 < (b : Int) + 1
      omega]
  have hfinal : (List.range 1001).map (fun (s : Nat) =>
      ({ time := (0 : Int) + (s : Int), value := (1 : ℚ) } : ChartDataPoint)) =
      ({ time := (0 : Int), value := (1 : ℚ) } : ChartDataPoint) ::
        (List.range 1000).map (fun (s : Nat) =>
          ({ time := (s : Int) + 1, value := (1 : ℚ) } : ChartDataPoint)) := by
    conv_lhs => rw [show (1001 : Nat) = 1000 + 1 from rfl, List.range_succ_eq_map]
    rw [List.map_cons, List.map_map]
    rw [List.cons_eq_cons]
    refine ⟨by norm_num, ?_⟩
    apply List.map_congr_left
    intro s hs
    show ({ time := (0 : Int) + ((Nat.succ s : Nat) : Int), value := (1 : ℚ) } :
      ChartDataPoint) = _
    rw [show (0 : Int) + ((Nat.succ s : Nat) : Int) = (s : Int) + 1 from by push_cast; ring]
  exact hfinal.symm

lemma chartPrepared_clusteredC6 : chartPrepared clusteredC6History "total" "ALL" 0 =
    [({ time := 0, value := 1 } : ChartDataPoint),
     ({ time := 1000, value := 2 } : ChartDataPoint)] := by
  have hsorted : List.Pairwise histLE clusteredC6History := by
    rw [clusteredC6History, List.pairwise_append]
    refine ⟨?_, ?_, ?_⟩
    · exact List.pairwise_replicate.mpr (Or.inr (le_refl _))
    · exact List.pairwise_replicate.mpr (Or.inr (le_refl _))
    · intro a ha b hb
      rw [List.eq_of_mem_replicate ha, List.eq_of_mem_replicate hb]
      show (0 : Int) ≤ 1000000
      norm_num
  rw [chartPrepared, List.Sorted.insertionSort_eq hsorted]
  rw [show clusteredC6History.filter (windowKeep "ALL" 0) = clusteredC6History from
    List.filter_eq_self.mpr fun a _ => windowKeep_all 0 a]
  rw [clusteredC6History, List.map_append, List.map_replicate, List.map_replicate]
  rw [show ({ time := epochSeconds (mkHistPt 0 1).timestamp
              value := metricValue "total" (mkHistPt 0 1) } : ChartDataPoint) =
      ({ time := 0, value := 1 } : ChartDataPoint) from rfl]
  rw [show ({ time := epochSeconds (mkHistPt 1000000 2).timestamp
              value := metricValue "total" (mkHistPt 1000000 2) } : ChartDataPoint) =
      ({ time := 1000, value := 2 } : ChartDataPoint) from rfl]
  rw [show List.replicate 1000 ({ time := 0, value := 1 } : ChartDataPoint) =
      ({ time := 0, value := 1 } : ChartDataPoint) ::
        List.replicate 999 ({ time := 0, value := 1 } : ChartDataPoint) from rfl]
  rw [List.cons_append, dedupByTime, dedupByTimeAux_replicate_same]
  rw [show List.replicate 1000 ({ time := 1000, value := 2 } : ChartDataPoint) =
      ({ time := 1000, value := 2 } : ChartDataPoint) ::
        List.replicate 999 ({ time := 1000, value := 2 } : ChartDataPoint) from rfl]
  rw [dedupByTimeAux]
  rw [if_neg (by norm_num : ¬((0 : Int) = 1000))]
  rw [show List.replicate 999 ({ time := 1000, value := 2 } : ChartDataPoint) =
      List.replicate 999 ({ time := 1000, value := 2 } : ChartDataPoint) ++ [] from
    (List.append_nil _).symm]
  rw [dedupByTimeAux_replicate_same]
  rfl

/-- C9 as the spec states it is FALSE: the per-account summary slice is NOT
produced by the §4.4 time-based sampling algorithm with the cap set to 100.
On a history of 101 points, one per second at seconds 0..100, the
summary's index-stride sampling keeps the first 100 points (seconds 0..99),
while the §4.4 algorithm at cap 100 selects seconds 0..98 and 100. -/
theorem C9_counterexample :
    ¬ ((WalletBalance.sampleHistory histC9).map (fun h => epochSeconds h.timestamp) =
       (timeSampleCap 100 (chartPrepared histC9 "total" "ALL" 0)).map fun p => p.time) := by
  rw [chartPrepared_histC9]
  rw [timeSampleCap_dense 100 (by norm_num) 0 (fun s => (s : ℚ))]
  decide

/-- C9 amended: the per-account summary serves a down-sampled slice of at
most 100 points that is an order-preserving subsequence of the history,
produced by index-stride decimation (keep every (len/100)-th index, then
the first 100 of those) — not by the §4.4 time-based resampling; a history
of at most 100 points is served whole. -/
theorem C9_summary_sampling (w : WalletBalance) :
    (w.to_summary).sampled_history.length ≤ 100 ∧
    (w.to_summary).sampled_history.Sublist w.history ∧
    (w.history.length ≤ 100 → (w.to_summary).sampled_history = w.history) := by
  have hsampled : (w.to_summary).sampled_history =
      WalletBalance.sampleHistory w.history := rfl
  rw [hsampled, WalletBalance.sampleHistory]
  by_cases hlen : w.history.length > 100
  · rw [if_pos hlen]
    refine ⟨?_, ?_, ?_⟩
    · rw [List.length_take]
      exact Nat.min_le_left _ _
    · have h1 : List.Sublist ((w.history.enum.filter fun p =>
          p.1 % (w.history.length / 100) == 0).map Prod.snd)
          (w.history.enum.map Prod.snd) :=
        (List.filter_sublist _).map Prod.snd
      rw [List.enum_map_snd] at h1
      exact (List.take_sublist _ _).trans h1
    · exact fun h2 => absurd h2 (by omega)
  · rw [if_neg hlen]
    exact ⟨Nat.le_of_not_lt hlen, List.Sublist.refl _, fun _ => rfl⟩

/-- Witness for C9's amended claim at a one-point history served whole. -/
theorem C9_summary_sampling_witness :
    c1Wallet.history.length ≤ 100 ∧
    (c1Wallet.to_summary).sampled_history.length ≤ 100 ∧
    (c1Wallet.to_summary).sampled_history = c1Wallet.history := by
  have hlen : c1Wallet.history.length ≤ 100 := by
    rw [c1Wallet]
    norm_num
  exact ⟨hlen, (C9_summary_sampling c1Wallet).1, (C9_summary_sampling c1Wallet).2.2 hlen⟩

/-- C6 as the spec states it is FALSE for general inputs of 2000 history
points spanning exactly 1000 seconds: when the 2000 points cover only the
two epoch-seconds 0 and 1000 (1000 points at 0 ms and 1000 points at
1000000 ms), per-second deduplication leaves 2 points, the 1000-point cap
is not exceeded, resampling never runs, and the query returns 2 points,
not 1000. -/
theorem C6_counterexample :
    clusteredC6History.length = 2000 ∧
    (clusteredC6History.head?.map fun h => h.timestamp) = some 0 ∧
    (clusteredC6History.getLast?.map fun h => h.timestamp) = some 1000000 ∧
    (chartPipeline clusteredC6History "total" "ALL" 0).length = 2 ∧
    (chartPipeline clusteredC6History "total" "ALL" 0).length ≠ 1000 := by
  have hpipe : chartPipeline clusteredC6History "total" "ALL" 0 =
      [({ time := 0, value := 1 } : ChartDataPoint),
       ({ time := 1000, value := 2 } : ChartDataPoint)] := by
    rw [chartPipeline, timeSample, chartPrepared_clusteredC6]
    rw [timeSampleCap]
    rw [if_neg (by norm_num)]
  refine ⟨?_, ?_, ?_, ?_, ?_⟩
  · rw [clusteredC6History, List.length_append, List.length_replicate, List.length_replicate]
  · rfl
  · rw [clusteredC6History, List.getLast?_append, List.getLast?_replicate]
    rw [if_neg (by norm_num : ¬(1000 = 0))]
    rfl
  · rw [hpipe]
    rfl
  · rw [hpipe]
    norm_num

/-- C6 amended: for an input of 2000 history points spanning exactly 1000
seconds (first point at 0 ms, last at 1000000 ms) whose points cover all
1001 distinct epoch-seconds — the only way such an input can exceed the
1000-point cap after per-second deduplication — the query with window "all"
resamples to exactly 1000 points whose first and last timestamps equal the
epoch-seconds of the input's first and last timestamps.  (When fewer
distinct seconds are covered, resampling is not triggered and fewer points
come back — see the counterexample.) -/
theorem C6_dense_resample_exact_1000 :
    denseC6History.length = 2000 ∧
    (denseC6History.head?.map fun h => h.timestamp) = some 0 ∧
    (denseC6History.getLast?.map fun h => h.timestamp) = some 1000000 ∧
    (chartPrepared denseC6History "total" "ALL" 0).length = 1001 ∧
    (chartPipeline denseC6History "total" "ALL" 0).length = 1000 ∧
    ((chartPipeline denseC6History "total" "ALL" 0).head?.map fun p => p.time) =
      some (epochSeconds 0) ∧
    ((chartPipeline denseC6History "total" "ALL" 0).getLast?.map fun p => p.time) =
      some (epochSeconds 1000000) := by
  have hpipe : chartPipeline denseC6History "total" "ALL" 0 =
      (List.range 1000).map
        ((fun (s : Nat) =>
          ({ time := (0 : Int) + (s : Int), value := (1 : ℚ) } : ChartDataPoint)) ∘
          fun (i : Nat) => if i < 1000 - 1 then i else 1000) := by
    rw [chartPipeline, timeSample, chartPrepared_denseC6]
    exact timeSampleCap_dense 1000 (by norm_num) 0 (fun _ => (1 : ℚ))
  refine ⟨?_, ?_, ?_, ?_, ?_, ?_, ?_⟩
  · rw [denseC6History, List.length_append, List.length_map, List.length_map,
      List.length_range]
  · rw [denseC6History, List.head?_append, List.head?_map, List.head?_range]
    rw [if_neg (by norm_num : ¬(1000 = 0))]
    rfl
  · rw [denseC6History, List.getLast?_append]
    rw [show (((List.range 1000).map fun (s : Nat) =>
        mkHistPt (1000 * ((s : Int) + 1)) 1)).getLast? = some (mkHistPt 1000000 1) from by
      conv_lhs => rw [show (1000 : Nat) = 999 + 1 from rfl]
      rw [List.range_succ, List.map_append, List.map_singleton, List.getLast?_concat]
      norm_num [mkHistPt]]
    rfl
  · rw [chartPrepared_denseC6, List.length_map, List.length_range]
  · rw [hpipe, List.length_map, List.length_range]
  · rw [hpipe, List.head?_map, List.head?_range]
    rw [if_neg (by norm_num : ¬(1000 = 0))]
    show some ((0 : Int) + ((if (0 : Nat) < 1000 - 1 then (0 : Nat) else 1000 : Nat) : Int)) =
      some (epochSeconds 0)
    norm_num [epochSeconds]
  · rw [hpipe]
    conv_lhs => rw [show (1000 : Nat) = 999 + 1 from rfl]
    rw [List.range_succ, List.map_append, List.map_singleton, List.getLast?_concat]
    show some ((0 : Int) + ((if (999 : Nat) < 1000 - 1 then (999 : Nat) else 1000 : Nat) : Int)) =
      some (epochSeconds 1000000)
    norm_num [epochSeconds]
